import Mathlib

/-!
Verification development for the cards-game server.

Shallow embedding of the session engine of the multiplayer trick-taking
card game server: the card/deck primitives (GameUtils.ts), the game state
machine (MultiplayerGameClass.ts) and the connection-continuity repair
paths of the websocket server (handleDisconnect / handleReconnection).

Pacing delays (setTimeout) in the source separate validation from
application and trick completion from resolution; each delayed block runs
to completion before the next intent in the single-threaded model, so the
embedding composes the delayed block with its initiating mutation, except
that the call from playCard to finishRound (issued after a 1.5 s pacing
delay) is modelled as the separate finishRound transition.
-/

namespace CardsGame

/-- The four suits of GameTypes.ts (`"diamond" | "spade" | "love" | "club"`). -/
inductive Suit where
  | diamond
  | spade
  | love
  | club
deriving DecidableEq, Repr

/-- The eight ranks of GameTypes.ts (`"6" | "7" | "8" | "9" | "10" | "J" | "Q" | "K"`). -/
inductive Rank where
  | r6
  | r7
  | r8
  | r9
  | r10
  | rJ
  | rQ
  | rK
deriving DecidableEq, Repr

/-- The static rank-to-value table `rankValues` of GameUtils.ts. -/
def rankValue : Rank → Nat
  | .r6 => 6
  | .r7 => 7
  | .r8 => 8
  | .r9 => 9
  | .r10 => 10
  | .rJ => 11
  | .rQ => 12
  | .rK => 13

/-- A Card of GameTypes.ts: suit, rank, and the stored numeric value. -/
structure Card where
  suit : Suit
  rank : Rank
  value : Nat
deriving DecidableEq, Repr

/-- A Player of GameTypes.ts. The optional lobby `status` field is not part
of the game-state machine and is omitted. -/
structure Player where
  name : String
  id : String
  hands : List Card
  score : Nat
deriving DecidableEq, Repr

/-- A Play of GameTypes.ts: a player reference together with the card played. -/
structure Play where
  player : Player
  card : Card
deriving DecidableEq, Repr

/-- A gameHistoryType entry of GameTypes.ts. -/
structure HistEntry where
  message : String
  importance : Bool
deriving DecidableEq, Repr

/-- A GameScore entry of GameTypes.ts. -/
structure GameScore where
  playerName : String
  score : Nat
deriving DecidableEq, Repr

/-- The GameOverData record of GameTypes.ts. -/
structure GameOverData where
  winner : Player
  score : List GameScore
  isCurrentPlayer : Bool
  isMultiPlayer : Bool
deriving DecidableEq, Repr

/-- The CardsGameState snapshot of GameTypes.ts, exactly the fields
returned by `MultiplayerCardsGame.getState()`. -/
structure CardsGameState where
  players : List Player
  currentPlays : List Play
  currentLeadCard : Option Card
  cardsPlayed : Nat
  message : String
  gameOver : Bool
  gameHistory : List HistEntry
  showStartButton : Bool
  isShuffling : Bool
  isDealing : Bool
  accumulatedPoints : Nat
  lastPlayedSuit : Option Suit
  currentControl : Player
  deck : List Card
  gameOverData : GameOverData
  gameTo : Nat
deriving DecidableEq, Repr

/-- The mutable fields of the MultiplayerCardsGame class. The unused
`currentCard` field (always null) and the callbacks record are omitted;
`playersToReconnect` is the roster of players queued for reinsertion at
the next trick boundary, referenced by the server reconnection handler. -/
structure Game where
  players : List Player
  currentPlays : List Play
  currentLeadCard : Option Card
  cardsPlayed : Nat
  message : String
  gameOver : Bool
  gameHistory : List HistEntry
  showStartButton : Bool
  isShuffling : Bool
  isDealing : Bool
  accumulatedPoints : Nat
  lastPlayedSuit : Option Suit
  currentControl : Player
  deck : List Card
  gameOverData : GameOverData
  gameTo : Nat
  playersToReconnect : List Player
deriving DecidableEq, Repr

/-- The `getState()` accessor of MultiplayerGameClass.ts: the externally
observable snapshot (it does not expose `playersToReconnect`). -/
def getState (g : Game) : CardsGameState :=
  { players := g.players
    currentPlays := g.currentPlays
    currentLeadCard := g.currentLeadCard
    cardsPlayed := g.cardsPlayed
    message := g.message
    gameOver := g.gameOver
    gameHistory := g.gameHistory
    showStartButton := g.showStartButton
    isShuffling := g.isShuffling
    isDealing := g.isDealing
    accumulatedPoints := g.accumulatedPoints
    lastPlayedSuit := g.lastPlayedSuit
    currentControl := g.currentControl
    deck := g.deck
    gameOverData := g.gameOverData
    gameTo := g.gameTo }

/-- Default player used as the out-of-bounds fallback of JS array indexing
(all in-scope accesses are in bounds). -/
def defaultPlayer : Player := { name := "", id := "", hands := [], score := 0 }

/-- Default play used as the out-of-bounds fallback of JS array indexing. -/
def defaultPlay : Play :=
  { player := defaultPlayer, card := { suit := .diamond, rank := .r6, value := 6 } }

/-- The suit list of GameUtils.ts. -/
def suits : List Suit := [.diamond, .spade, .love, .club]

/-- The rank list of GameUtils.ts. -/
def ranks : List Rank := [.r6, .r7, .r8, .r9, .r10, .rJ, .rQ, .rK]

/-- The `suitSymbols` table of GameUtils.ts. -/
def suitSymbol : Suit → String
  | .diamond => "♦"
  | .spade => "♠"
  | .love => "♥"
  | .club => "♣"

/-- String form of a suit as it appears interpolated in messages. -/
def suitName : Suit → String
  | .diamond => "diamond"
  | .spade => "spade"
  | .love => "love"
  | .club => "club"

/-- String form of a rank as it appears interpolated in messages. -/
def rankString : Rank → String
  | .r6 => "6"
  | .r7 => "7"
  | .r8 => "8"
  | .r9 => "9"
  | .r10 => "10"
  | .rJ => "J"
  | .rQ => "Q"
  | .rK => "K"

/-- The `createDeck()` builder of GameUtils.ts: for each suit, for each
rank, push the card with its table-derived value (32 cards). -/
def createDeck : List Card :=
  (suits.map (fun s => ranks.map (fun r => { suit := s, rank := r, value := rankValue r }))).flatten

/-- One dealing round of `dealCards` in GameUtils.ts: give each of `n`
players `k` cards consumed from the front of the deck, in player order. -/
def dealRound (k : Nat) : Nat → List Card → List (List Card) × List Card
  | 0, deck => ([], deck)
  | n + 1, deck =>
    let res := dealRound k n (deck.drop k)
    (deck.take k :: res.1, res.2)

/-- The `dealCards(players, deck)` function of GameUtils.ts: a first round
of 3 cards per player then a second round of 2 cards per player, both
consumed from the front of the deck; returns the hands and the remaining
deck. The console-only duplicate check is side-effect free and omitted. -/
def dealCards (players : List Player) (deck : List Card) : List (List Card) × List Card :=
  let n := players.length
  let round1 := dealRound 3 n deck
  let round2 := dealRound 2 n round1.2
  (List.zipWith (· ++ ·) round1.1 round2.1, round2.2)

/-- JS `Array.prototype.findIndex` over a list: index of the first element
satisfying the predicate, if any. -/
def findIdx0 {α : Type} (p : α → Bool) : List α → Option Nat
  | [] => none
  | a :: l => if p a then some 0 else (findIdx0 p l).map (· + 1)

/-- The `calculateCardPoints(card)` method: 3 for rank 6, 2 for rank 7,
1 for ranks 8 through K. -/
def calculateCardPoints (card : Card) : Nat :=
  if card.rank = Rank.r6 then 3
  else if card.rank = Rank.r7 then 2
  else 1

/-- The winner-selection loop of `finishRound` (lines 295-305): walk the
plays after the first, tracking `winningPlayIndex` and `highestValue`,
updating only on a lead-suit card of strictly higher value. -/
def winnerLoop (leadSuit : Suit) : List Play → Nat → Nat → Nat → Nat × Nat
  | [], _, bestIdx, bestVal => (bestIdx, bestVal)
  | p :: rest, i, bestIdx, bestVal =>
    if p.card.suit = leadSuit ∧ bestVal < p.card.value then
      winnerLoop leadSuit rest (i + 1) i p.card.value
    else
      winnerLoop leadSuit rest (i + 1) bestIdx bestVal

/-- Index of the winning play of a trick: `winningPlayIndex` starts at 0
with `highestValue` taken from the first play regardless of its suit. -/
def trickWinnerIdx (leadSuit : Suit) (plays : List Play) : Nat :=
  match plays with
  | [] => 0
  | p0 :: rest => (winnerLoop leadSuit rest 1 0 p0.card.value).1

/-- The winning play of a trick, `currentPlays[winningPlayIndex]`. -/
def trickWinner (leadSuit : Suit) (plays : List Play) : Play :=
  plays.getD (trickWinnerIdx leadSuit plays) defaultPlay

/-- The scoring block of `finishRound` (lines 315-353). Returns
(pointsEarned, newAccumulatedPoints, newLastPlayedSuit). The preliminary
zeroing of `newAccumulatedPoints` on a control change is dead code in the
source (every branch overwrites it) and is not represented; the
preliminary clearing of `newLastPlayedSuit` is `resetLast`. -/
def scoreTrick (oldControl : Player) (newControl : Player) (winningCard : Card)
    (leadSuit : Suit) (accumulated : Nat) (lastSuit : Option Suit) :
    Nat × Nat × Option Suit :=
  let resetLast : Option Suit := if oldControl.id ≠ newControl.id then none else lastSuit
  let isControlTransfer : Prop :=
    oldControl.id ≠ newControl.id ∧
      (winningCard.rank = Rank.r6 ∨ winningCard.rank = Rank.r7) ∧
      winningCard.suit = leadSuit
  let pn : Nat × Nat :=
    if isControlTransfer then (1, 0)
    else if newControl.id = oldControl.id then
      let cardPoints := calculateCardPoints winningCard
      if winningCard.rank = Rank.r6 ∨ winningCard.rank = Rank.r7 then
        if lastSuit = some winningCard.suit then (cardPoints, cardPoints)
        else (cardPoints, accumulated + cardPoints)
      else (1, 0)
    else (1, 0)
  let newLast : Option Suit :=
    if winningCard.rank = Rank.r6 ∨ winningCard.rank = Rank.r7 then some winningCard.suit
    else resetLast
  (pn.1, pn.2, newLast)

/-- The `handleGameOver(newControl, newAccumulatedPoints, pointsEarned)`
method: mark the game over, credit the final points (the fresh carry when
non-zero, else the immediate points) to the winning controller, and when a
player has reached the target record the match result. When no player has
reached the target the source schedules `startGame()` after a pacing
delay; that restart is a separate transition and not part of this
mutation. A missing winner index leaves the roster unchanged (the source
would write to index -1, a no-op on the array contents). -/
def handleGameOver (g : Game) (newControl : Player) (newAccumulatedPoints : Nat)
    (pointsEarned : Nat) : Game :=
  let g1 := { g with gameOver := true, showStartButton := true }
  let finalPoints := if newAccumulatedPoints = 0 then pointsEarned else newAccumulatedPoints
  let updatedPlayers :=
    match findIdx0 (fun p => p.id = newControl.id) g1.players with
    | some wi =>
      let pl := g1.players.getD wi defaultPlayer
      g1.players.set wi { pl with score := pl.score + finalPoints }
    | none => g1.players
  let g2 := { g1 with
    players := updatedPlayers
    message := "🏆 " ++ newControl.name ++ " won this game with " ++
      toString finalPoints ++ " points! 🏆" }
  match updatedPlayers.find? (fun p => g2.gameTo ≤ p.score) with
  | none => g2
  | some gameWinner =>
    { g2 with
      message := "Game Over! " ++ gameWinner.name ++ " won the match!"
      gameOverData :=
        { winner := gameWinner
          score := updatedPlayers.map (fun p => { playerName := p.name, score := p.score })
          isCurrentPlayer := false
          isMultiPlayer := true } }

/-- The `finishRound()` method together with its delayed block (resetRound,
trick-counter update and, at 5 completed tricks, handleGameOver). Returns
the post-state and the local `pointsEarned` (the value handed to
handleGameOver). Returns unchanged state when `currentPlays` is empty or
`currentLeadCard` is null, as the source's early return does. -/
def finishRoundEx (g : Game) : Game × Nat :=
  match g.currentPlays, g.currentLeadCard with
  | [], _ => (g, 0)
  | _ :: _, none => (g, 0)
  | p0 :: rest, some lead =>
    let plays := p0 :: rest
    let leadSuit := lead.suit
    let winningPlay := trickWinner leadSuit plays
    let newControl := winningPlay.player
    let sc := scoreTrick g.currentControl newControl winningPlay.card leadSuit
      g.accumulatedPoints g.lastPlayedSuit
    let pointsEarned := sc.1
    let newAccumulatedPoints := sc.2.1
    let newLastPlayedSuit := sc.2.2
    let newHistory := g.gameHistory ++
      [{ message := newControl.name ++ " Won Round " ++ toString (g.cardsPlayed + 1),
         importance := true }]
    let g1 := { g with
      currentControl := newControl
      message := newControl.name ++ " wins the round."
      gameHistory := newHistory
      accumulatedPoints := newAccumulatedPoints
      lastPlayedSuit := newLastPlayedSuit }
    let g2 := { g1 with currentLeadCard := none, currentPlays := [] }
    let newRoundsPlayed := g.cardsPlayed + 1
    let g3 := { g2 with cardsPlayed := if 5 < newRoundsPlayed then 5 else newRoundsPlayed }
    if 5 ≤ newRoundsPlayed then
      (handleGameOver g3 newControl newAccumulatedPoints pointsEarned, pointsEarned)
    else
      ({ g3 with message := newControl.name ++ " will play first" }, pointsEarned)

/-- The `finishRound()` state transition (discarding the instrumented
`pointsEarned` output). -/
def finishRound (g : Game) : Game := (finishRoundEx g).1

/-- The error/message pair returned by `playerPlayCard`. -/
structure PlayResult where
  error : String
  message : String
deriving DecidableEq, Repr

/-- The `playCard(player, card)` method: append the play, fix the lead
card when the trick was empty, and record history. When the appended play
completes the trick the source invokes `finishRound()` after a pacing
delay; that resolution is modelled as the separate finishRound
transition, so this function returns the state as broadcast right after
the append. -/
def playCard (g : Game) (player : Player) (card : Card) : Game :=
  let newPlays := g.currentPlays ++ [{ player := player, card := card }]
  let newLeadCard := if g.currentPlays.length = 0 then some card else g.currentLeadCard
  let newHistory := g.gameHistory ++
    [{ message := player.name ++ " played " ++ rankString card.rank ++ suitSymbol card.suit,
       importance := false }]
  let g1 := { g with
    currentPlays := newPlays
    currentLeadCard := newLeadCard
    gameHistory := newHistory }
  if newPlays.length = g.players.length then g1
  else { g1 with message := "Waiting for opponents to play..." }

/-- The application step of an accepted play (lines 220-236): splice the
card at position `index` out of the actor's hand, then register the play
through `playCard` with the updated player object. -/
def applyPlay (g : Game) (playerIndex : Nat) (card : Card) (index : Nat) : Game :=
  let pl := g.players.getD playerIndex defaultPlayer
  let newHand := pl.hands.eraseIdx index
  let updatedPlayers := g.players.set playerIndex { pl with hands := newHand }
  let g1 := { g with players := updatedPlayers }
  playCard g1 (updatedPlayers.getD playerIndex defaultPlayer) card

/-- The `playerPlayCard(playerId, card, index)` entry point: the ordered
validation checks (game over; actor unknown; empty trick and actor not
the controller; double play; must follow suit) and, when all pass, the
application step. Returns the result pair of the source together with the
post-state. -/
def playerPlayCard (g : Game) (playerId : String) (card : Card) (index : Nat) :
    PlayResult × Game :=
  if g.gameOver then
    ({ error := "Game is over", message := " No more plays allowed." }, g)
  else
    match findIdx0 (fun p => p.id = playerId) g.players with
    | none => ({ error := "Error", message := "Player not found." }, g)
    | some playerIndex =>
      if g.currentPlays.length = 0 ∧ g.currentControl.id ≠ playerId then
        ({ error := "Error", message := "Only the round leader can play first." }, g)
      else if g.currentPlays.any (fun play => play.player.id = playerId) then
        ({ error := "Error", message := "You have already played in this round." }, g)
      else
        match g.currentLeadCard with
        | some leadC =>
          if (g.players.getD playerIndex defaultPlayer).hands.any
              (fun c => c.suit = leadC.suit) ∧ card.suit ≠ leadC.suit then
            ({ error := "Invalid Move",
               message := "You must play a " ++ suitName leadC.suit ++
                 " card if you have one." },
             g)
          else
            ({ error := "", message := "" }, applyPlay g playerIndex card index)
        | none =>
          ({ error := "", message := "" }, applyPlay g playerIndex card index)

/-- The `handleGameState()` method of MultiplayerGameClass.ts: when the
remaining deck cannot cover `players.length * 5` cards, replace it by a
freshly created and shuffled deck, then deal and install the hands.
`shuffleDeck` draws from `Math.random`; its output is modelled by the
`fresh` parameter, constrained in theorems to be a permutation of
`createDeck`. -/
def handleGameState (g : Game) (fresh : List Card) : Game :=
  let minCardsNeeded := g.players.length * 5
  let deck0 := if g.deck.length < minCardsNeeded then fresh else g.deck
  let dealt := dealCards g.players deck0
  let updatedPlayers := List.zipWith (fun p h => { p with hands := h }) g.players dealt.1
  { g with deck := dealt.2, players := updatedPlayers }

/-- The deck actually handed to `dealCards` by `handleGameState`. -/
def deckForDeal (g : Game) (fresh : List Card) : List Card :=
  if g.deck.length < g.players.length * 5 then fresh else g.deck

/-- The Reconnection Record captured by `handleDisconnect` (the
`ReconnectionData` of ServerTypes.ts). The room identifier and the expiry
timer handle are transport infrastructure and omitted: only the player
snapshot and the session-state snapshot enter the reconciliation logic. -/
structure ReconRecord where
  player : Player
  gameSate : CardsGameState
deriving DecidableEq, Repr

/-- Steps 1-5 of the game-state repair performed by the server's
`handleDisconnect` for a departing participant `pid` found at index `i` of
the game roster (part_000 lines 76-130):
control transfer to the next player in roster order when the departing
player held control and the shrunk room roster keeps at least 2 players;
lead-card recomputation when the departing player authored the first play
(the source reads `currentPlays[0]` unconditionally, which is well defined
only on a non-empty trick - a null lead with plays present is unreachable,
so the empty case leaves the state unchanged); return of the played card
to the player's hand and removal of the play; capture of the reconnection
record; removal of the player from the roster. `roomRestLen` is
`room.players.length` after the room-level removal of `pid`. -/
def repairControl (g : Game) (roomRestLen : Nat) (pid : String) (i : Nat) : Game :=
  if g.currentControl.id = pid ∧ 2 ≤ roomRestLen then
    { g with currentControl := g.players.getD ((i + 1) % g.players.length) defaultPlayer }
  else g

def repairLead (g : Game) (pid : String) : Game :=
  match g.currentPlays with
  | [] => g
  | q0 :: qrest =>
    if g.currentLeadCard.isSome ∧ q0.player.id = pid then
      { g with currentLeadCard := qrest.head?.map Play.card }
    else g

def repairPlays (g : Game) (pid : String) (i : Nat) : Game :=
  match (g.currentPlays.find? (fun p => p.player.id = pid)).map Play.card with
  | some c =>
    let pl := g.players.getD i defaultPlayer
    { g with
      players := g.players.set i { pl with hands := pl.hands ++ [c] }
      currentPlays := g.currentPlays.filter (fun p => ¬ p.player.id = pid) }
  | none => g

def disconnectRepair (g : Game) (roomRestLen : Nat) (pid : String) (i : Nat) :
    Game × ReconRecord :=
  let g3 := repairPlays (repairLead (repairControl g roomRestLen pid i) pid) pid i
  let record : ReconRecord :=
    { player := g3.players.getD i defaultPlayer, gameSate := getState g3 }
  ({ g3 with players := g3.players.eraseIdx i }, record)

/-- The game-instance portion of the server's `handleDisconnect`: locate
the departing player in the game roster, run the repair, and when the
remaining plays now equal the shrunk room roster size (and are at least
two) resolve the trick immediately. -/
def handleDisconnectGame (g : Game) (roomRestLen : Nat) (pid : String) :
    Game × Option ReconRecord :=
  match findIdx0 (fun p => p.id = pid) g.players with
  | none => (g, none)
  | some i =>
    let d := disconnectRepair g roomRestLen pid i
    let g5 :=
      if d.1.currentPlays.length = roomRestLen ∧ 2 ≤ d.1.currentPlays.length then
        finishRound d.1
      else d.1
    (g5, some d.2)

/-- JS splice-based removal of the first roster entry with the given id,
as used by the dedupe steps of `handleReconnection`. -/
def removeFirstWithId (ps : List Player) (pid : String) : List Player :=
  match findIdx0 (fun p => p.id = pid) ps with
  | some i => ps.eraseIdx i
  | none => ps

/-- The state of the game just before the reinsertion decision of
`handleReconnection` (part_000 lines 252-278): duplicates of the new
socket id removed from the live roster and from the reconnect queue, and
the trick resolved when the pending plays already equal the room roster
size (the room roster, `roomPlayersLen`, includes the reconnecting player,
pushed at line 241). -/
def reconnStage (g : Game) (roomPlayersLen : Nat) (sockId : String) : Game :=
  let g1 := { g with
    players := removeFirstWithId g.players sockId
    playersToReconnect := removeFirstWithId g.playersToReconnect sockId }
  if g1.currentPlays.length = roomPlayersLen ∧ 2 ≤ g1.currentPlays.length then finishRound g1
  else g1

/-- The game-instance portion of `handleReconnection` (part_000 lines
252-297) for a valid reconnection record: rebind the saved player to the
new socket id, dedupe and possibly resolve the trick, then either insert
the player directly into the live roster - when the observable state
equals the snapshot captured at disconnect (`JSON.stringify` equality,
modelled as structural equality) or the trick counter equals 5 minus the
saved hand size - or queue the player for the next trick boundary. The
returned flag is true exactly on a live insertion. -/
def handleReconnectionGame (g : Game) (savedPlayer : Player) (gameSate : CardsGameState)
    (roomPlayersLen : Nat) (sockId : String) : Game × Bool :=
  let player := { savedPlayer with id := sockId }
  let g2 := reconnStage g roomPlayersLen sockId
  if gameSate = getState g2 ∨ (g2.cardsPlayed : Int) = 5 - (player.hands.length : Int) then
    ({ g2 with players := g2.players ++ [player] }, true)
  else
    ({ g2 with playersToReconnect := g2.playersToReconnect ++ [player] }, false)

/-! Helper lemmas about the list operations used by the embedding. -/

theorem getD_mem {α : Type} : ∀ (l : List α) (n : Nat) (d : α), n < l.length → l.getD n d ∈ l
  | a :: l, 0, d, _ => by simp
  | a :: l, n + 1, d, h => by
    simp only [List.getD_cons_succ]
    exact List.mem_cons_of_mem a (getD_mem l n d (by simpa using h))

theorem getD_set_self {α : Type} :
    ∀ (l : List α) (i : Nat) (x d : α), i < l.length → (l.set i x).getD i d = x
  | a :: l, 0, x, d, _ => rfl
  | a :: l, i + 1, x, d, h => by
    simp only [List.set_cons_succ, List.getD_cons_succ]
    exact getD_set_self l i x d (by simpa using h)

theorem getD_set_ne {α : Type} :
    ∀ (l : List α) (i j : Nat) (x d : α), j ≠ i → (l.set i x).getD j d = l.getD j d
  | [], _, _, _, _, _ => by simp
  | a :: l, 0, 0, x, d, h => absurd rfl h
  | a :: l, 0, j + 1, x, d, _ => by simp
  | a :: l, i + 1, 0, x, d, _ => by simp
  | a :: l, i + 1, j + 1, x, d, h => by
    simp only [List.set_cons_succ, List.getD_cons_succ]
    exact getD_set_ne l i j x d (fun e => h (by omega))

theorem eraseIdx_set_self {α : Type} :
    ∀ (l : List α) (i : Nat) (x : α), (l.set i x).eraseIdx i = l.eraseIdx i
  | [], _, _ => rfl
  | a :: l, 0, x => rfl
  | a :: l, i + 1, x => by
    simp only [List.set_cons_succ, List.eraseIdx_cons_succ, List.cons.injEq, true_and]
    exact eraseIdx_set_self l i x

theorem getD_mem_eraseIdx {α : Type} :
    ∀ (l : List α) (i j : Nat) (d : α), j < l.length → j ≠ i → l.getD j d ∈ l.eraseIdx i
  | a :: l, 0, 0, d, _, h => absurd rfl h
  | a :: l, 0, j + 1, d, hl, _ => by
    simp only [List.getD_cons_succ, List.eraseIdx_cons_zero]
    exact getD_mem l j d (by simpa using hl)
  | a :: l, i + 1, 0, d, _, _ => by simp
  | a :: l, i + 1, j + 1, d, hl, h => by
    simp only [List.getD_cons_succ, List.eraseIdx_cons_succ]
    exact List.mem_cons_of_mem a
      (getD_mem_eraseIdx l i j d (by simpa using hl) (fun e => h (by omega)))

theorem findIdx0_bounds {α : Type} (p : α → Bool) :
    ∀ (l : List α) (i : Nat), findIdx0 p l = some i →
      i < l.length ∧ ∀ d, p (l.getD i d) = true
  | [], i, h => by simp [findIdx0] at h
  | a :: l, i, h => by
    by_cases ha : p a
    · simp only [findIdx0, ha, if_true, Option.some.injEq] at h
      subst h
      exact ⟨Nat.succ_pos _, fun d => by simpa using ha⟩
    · simp only [findIdx0, ha, if_false] at h
      cases hfl : findIdx0 p l with
      | none => rw [hfl] at h; simp at h
      | some j =>
        rw [hfl] at h
        simp only [Bool.false_eq_true, if_false, Option.map_some', Option.some.injEq] at h
        subst h
        obtain ⟨h1, h2⟩ := findIdx0_bounds p l j hfl
        exact ⟨by simpa using Nat.succ_lt_succ h1, fun d => by simpa using h2 d⟩

theorem set_getD_self {α : Type} :
    ∀ (l : List α) (i : Nat) (d : α), l.set i (l.getD i d) = l
  | [], _, _ => rfl
  | a :: l, 0, d => rfl
  | a :: l, i + 1, d => by
    simp only [List.set_cons_succ, List.getD_cons_succ, List.cons.injEq, true_and]
    exact set_getD_self l i d

theorem mod_succ_ne {i n : Nat} (hi : i < n) (hn : 2 ≤ n) : (i + 1) % n ≠ i := by
  rcases Nat.lt_or_ge (i + 1) n with h | h
  · rw [Nat.mod_eq_of_lt h]
    omega
  · have : i + 1 = n := by omega
    subst this
    simp only [Nat.mod_self]
    omega

theorem mod_lt_of_lt {i n : Nat} (hi : i < n) : (i + 1) % n < n :=
  Nat.mod_lt _ (Nat.lt_of_le_of_lt (Nat.zero_le i) hi)

/-- Updating one player's score in place leaves the id column unchanged. -/
theorem set_score_map_id :
    ∀ (l : List CardsGame.Player) (i : Nat) (s : Nat) (d : CardsGame.Player),
      ((l.set i (let p := l.getD i d; { p with score := s })).map CardsGame.Player.id) =
        l.map CardsGame.Player.id
  | [], _, _, _ => rfl
  | a :: l, 0, s, d => rfl
  | a :: l, i + 1, s, d => by
    simp only [List.set_cons_succ, List.getD_cons_succ, List.map_cons, List.cons.injEq, true_and]
    exact set_score_map_id l i s d

theorem dealRound_snd (k : Nat) :
    ∀ (n : Nat) (deck : List Card), (dealRound k n deck).2 = deck.drop (k * n)
  | 0, deck => by simp [dealRound]
  | n + 1, deck => by
    have ih := dealRound_snd k n (deck.drop k)
    simp only [dealRound, ih, List.drop_drop]
    congr 1
    ring

theorem dealRound_fst_length (k : Nat) :
    ∀ (n : Nat) (deck : List Card), (dealRound k n deck).1.length = n
  | 0, _ => rfl
  | n + 1, deck => by
    simp only [dealRound, List.length_cons]
    rw [dealRound_fst_length k n]

theorem dealRound_flatten (k : Nat) :
    ∀ (n : Nat) (deck : List Card), (dealRound k n deck).1.flatten = deck.take (k * n)
  | 0, deck => by simp [dealRound]
  | n + 1, deck => by
    have ih := dealRound_flatten k n (deck.drop k)
    simp only [dealRound, List.flatten_cons, ih]
    rw [show k * (n + 1) = k + k * n by ring, List.take_add]

theorem dealRound_getD (k : Nat) :
    ∀ (n : Nat) (deck : List Card) (i : Nat), i < n →
      (dealRound k n deck).1.getD i [] = (deck.drop (k * i)).take k
  | n + 1, deck, 0, _ => by simp [dealRound]
  | n + 1, deck, i + 1, h => by
    have ih := dealRound_getD k n (deck.drop k) i (by omega)
    simp only [dealRound, List.getD_cons_succ, ih, List.drop_drop]
    congr 2
    ring

theorem getD_zipWith_append {α : Type} :
    ∀ (A B : List (List α)) (i : Nat), i < A.length → i < B.length →
      (List.zipWith (· ++ ·) A B).getD i [] = A.getD i [] ++ B.getD i []
  | a :: A, b :: B, 0, _, _ => by simp
  | a :: A, b :: B, i + 1, hA, hB => by
    simp only [List.zipWith_cons_cons, List.getD_cons_succ]
    exact getD_zipWith_append A B i (by simpa using hA) (by simpa using hB)

theorem zipWith_append_flatten_perm {α : Type} :
    ∀ (A B : List (List α)), A.length = B.length →
      List.Perm (List.zipWith (· ++ ·) A B).flatten (A.flatten ++ B.flatten)
  | [], [], _ => by simp
  | a :: A, b :: B, h => by
    have ih := zipWith_append_flatten_perm A B (by simpa using h)
    simp only [List.zipWith_cons_cons, List.flatten_cons]
    refine (ih.append_left (a ++ b)).trans ?_
    simp only [List.append_assoc]
    refine List.Perm.append_left a ?_
    rw [← List.append_assoc, ← List.append_assoc]
    exact List.perm_append_comm.append_right _

/-- Full characterisation of the winner-selection loop: either no later
lead-suit play beats the running best (result unchanged), or the result is
the earliest later lead-suit play attaining the final highest value. -/
theorem winnerLoop_spec (ls : Suit) :
    ∀ (rem : List Play) (i bi bv : Nat),
      bv ≤ (winnerLoop ls rem i bi bv).2 ∧
      (∀ p ∈ rem, p.card.suit = ls → p.card.value ≤ (winnerLoop ls rem i bi bv).2) ∧
      (((winnerLoop ls rem i bi bv).1 = bi ∧ (winnerLoop ls rem i bi bv).2 = bv ∧
          ∀ k, k < rem.length → (rem.getD k defaultPlay).card.suit = ls →
            (rem.getD k defaultPlay).card.value ≤ bv) ∨
        (∃ k, k < rem.length ∧ (winnerLoop ls rem i bi bv).1 = i + k ∧
          (rem.getD k defaultPlay).card.suit = ls ∧
          (rem.getD k defaultPlay).card.value = (winnerLoop ls rem i bi bv).2 ∧
          bv < (winnerLoop ls rem i bi bv).2 ∧
          ∀ j, j < k → (rem.getD j defaultPlay).card.suit = ls →
            (rem.getD j defaultPlay).card.value < (winnerLoop ls rem i bi bv).2)) := by
  intro rem
  induction rem with
  | nil =>
    intro i bi bv
    refine ⟨Nat.le_refl _, by simp, Or.inl ⟨rfl, rfl, by simp⟩⟩
  | cons p rest ih =>
    intro i bi bv
    by_cases hc : p.card.suit = ls ∧ bv < p.card.value
    · have hw : winnerLoop ls (p :: rest) i bi bv =
          winnerLoop ls rest (i + 1) i p.card.value := by
        simp only [winnerLoop, if_pos hc]
      obtain ⟨ih1, ih2, ih3⟩ := ih (i + 1) i p.card.value
      rw [hw]
      refine ⟨Nat.le_of_lt (Nat.lt_of_lt_of_le hc.2 ih1), ?_, ?_⟩
      · intro q hq hqs
        rcases List.mem_cons.mp hq with rfl | hq'
        · exact ih1
        · exact ih2 q hq' hqs
      · rcases ih3 with ⟨e1, e2, _⟩ | ⟨k, hk, e1, hs, hv, hlt, hprev⟩
        · refine Or.inr ⟨0, by simp, by simpa using e1, by simpa using hc.1, ?_, ?_, by simp⟩
          · simpa using e2.symm
          · rw [e2]; exact hc.2
        · refine Or.inr ⟨k + 1, by simpa using Nat.succ_lt_succ hk, by rw [e1]; omega,
            by simpa using hs, by simpa using hv, Nat.lt_trans hc.2 hlt, ?_⟩
          intro j hj hjs
          cases j with
          | zero => simpa using hlt
          | succ j' =>
            simp only [List.getD_cons_succ] at hjs ⊢
            exact hprev j' (by omega) hjs
    · have hw : winnerLoop ls (p :: rest) i bi bv =
          winnerLoop ls rest (i + 1) bi bv := by
        simp only [winnerLoop, if_neg hc]
      have hple : p.card.suit = ls → p.card.value ≤ bv := by
        intro hs
        by_contra hgt
        exact hc ⟨hs, by omega⟩
      obtain ⟨ih1, ih2, ih3⟩ := ih (i + 1) bi bv
      rw [hw]
      refine ⟨ih1, ?_, ?_⟩
      · intro q hq hqs
        rcases List.mem_cons.mp hq with rfl | hq'
        · exact Nat.le_trans (hple hqs) ih1
        · exact ih2 q hq' hqs
      · rcases ih3 with ⟨e1, e2, hall⟩ | ⟨k, hk, e1, hs, hv, hlt, hprev⟩
        · refine Or.inl ⟨e1, e2, ?_⟩
          intro k hkl hks
          cases k with
          | zero => simpa using hple (by simpa using hks)
          | succ k' =>
            simp only [List.getD_cons_succ] at hks ⊢
            exact hall k' (by simpa using hkl) hks
        · refine Or.inr ⟨k + 1, by simpa using Nat.succ_lt_succ hk, by rw [e1]; omega,
            by simpa using hs, by simpa using hv, hlt, ?_⟩
          intro j hj hjs
          cases j with
          | zero =>
            simp only [List.getD_cons_zero] at hjs ⊢
            exact Nat.lt_of_le_of_lt (hple hjs) hlt
          | succ j' =>
            simp only [List.getD_cons_succ] at hjs ⊢
            exact hprev j' (by omega) hjs

/-- Winner selection on a trick whose first play follows the lead suit:
the selected index is in range, the selected play follows the lead suit,
no lead-suit play has a higher value, and every earlier lead-suit play has
a strictly lower value. -/
theorem trickWinner_spec (ls : Suit) (p0 : Play) (rest : List Play)
    (hsuit : p0.card.suit = ls) :
    trickWinnerIdx ls (p0 :: rest) < (p0 :: rest).length ∧
    ((p0 :: rest).getD (trickWinnerIdx ls (p0 :: rest)) defaultPlay).card.suit = ls ∧
    (∀ j, j < (p0 :: rest).length → ((p0 :: rest).getD j defaultPlay).card.suit = ls →
      ((p0 :: rest).getD j defaultPlay).card.value ≤
        ((p0 :: rest).getD (trickWinnerIdx ls (p0 :: rest)) defaultPlay).card.value) ∧
    (∀ j, j < trickWinnerIdx ls (p0 :: rest) →
      ((p0 :: rest).getD j defaultPlay).card.suit = ls →
      ((p0 :: rest).getD j defaultPlay).card.value <
        ((p0 :: rest).getD (trickWinnerIdx ls (p0 :: rest)) defaultPlay).card.value) := by
  obtain ⟨s1, s2, s3⟩ := winnerLoop_spec ls rest 1 0 p0.card.value
  have hidx : trickWinnerIdx ls (p0 :: rest) = (winnerLoop ls rest 1 0 p0.card.value).1 := rfl
  rcases s3 with ⟨e1, e2, hall⟩ | ⟨k, hk, e1, hs, hv, hlt, hprev⟩
  · rw [hidx, e1]
    refine ⟨by simp, by simpa using hsuit, ?_, by simp⟩
    intro j hj hjs
    cases j with
    | zero => simp
    | succ j' =>
      simp only [List.getD_cons_succ, List.getD_cons_zero] at hjs ⊢
      exact Nat.le_trans (hall j' (by simpa using hj) hjs) (by simp [e2])
  · rw [hidx, e1]
    have hgd : (p0 :: rest).getD (1 + k) defaultPlay = rest.getD k defaultPlay := by
      rw [show 1 + k = k + 1 by omega, List.getD_cons_succ]
    refine ⟨by simp only [List.length_cons]; omega, by rw [hgd]; exact hs, ?_, ?_⟩
    · intro j hj hjs
      rw [hgd, hv]
      cases j with
      | zero => simpa using Nat.le_of_lt hlt
      | succ j' =>
        simp only [List.getD_cons_succ] at hjs ⊢
        exact s2 _ (getD_mem rest j' defaultPlay (by simpa using hj)) hjs
    · intro j hj hjs
      rw [hgd, hv]
      cases j with
      | zero => simpa using hlt
      | succ j' =>
        simp only [List.getD_cons_succ] at hjs ⊢
        exact hprev j' (by omega) hjs

/-- Trick-resolution post-state in terms of the winner selection and the
scoring block: the instrumented points, the accumulated carry, the
last-played suit, the new controller and the stability of the roster id
column, for a trick with plays present and a lead card set. -/
theorem finishRoundEx_fields (g : Game) (p0 : Play) (rest : List Play) (lead : Card)
    (h1 : g.currentPlays = p0 :: rest) (h2 : g.currentLeadCard = some lead) :
    (finishRoundEx g).2 =
      (scoreTrick g.currentControl (trickWinner lead.suit (p0 :: rest)).player
        (trickWinner lead.suit (p0 :: rest)).card
        lead.suit g.accumulatedPoints g.lastPlayedSuit).1 ∧
    (finishRoundEx g).1.accumulatedPoints =
      (scoreTrick g.currentControl (trickWinner lead.suit (p0 :: rest)).player
        (trickWinner lead.suit (p0 :: rest)).card
        lead.suit g.accumulatedPoints g.lastPlayedSuit).2.1 ∧
    (finishRoundEx g).1.lastPlayedSuit =
      (scoreTrick g.currentControl (trickWinner lead.suit (p0 :: rest)).player
        (trickWinner lead.suit (p0 :: rest)).card
        lead.suit g.accumulatedPoints g.lastPlayedSuit).2.2 ∧
    (finishRoundEx g).1.currentControl = (trickWinner lead.suit (p0 :: rest)).player ∧
    (finishRoundEx g).1.players.map Player.id = g.players.map Player.id := by
  have hgo : ∀ (g3 : Game) (nc : Player) (na pe : Nat),
      (handleGameOver g3 nc na pe).accumulatedPoints = g3.accumulatedPoints ∧
      (handleGameOver g3 nc na pe).lastPlayedSuit = g3.lastPlayedSuit ∧
      (handleGameOver g3 nc na pe).currentControl = g3.currentControl ∧
      (handleGameOver g3 nc na pe).players.map Player.id = g3.players.map Player.id := by
    intro g3 nc na pe
    unfold handleGameOver
    cases hf : findIdx0 (fun p => p.id = nc.id) g3.players with
    | none =>
      simp only [hf]
      split
      · exact ⟨rfl, rfl, rfl, rfl⟩
      · exact ⟨rfl, rfl, rfl, rfl⟩
    | some wi =>
      simp only [hf]
      split
      · exact ⟨rfl, rfl, rfl, set_score_map_id g3.players wi _ defaultPlayer⟩
      · exact ⟨rfl, rfl, rfl, set_score_map_id g3.players wi _ defaultPlayer⟩
  simp only [finishRoundEx, h1, h2]
  split
  · exact ⟨by simp [hgo], by simp [hgo], by simp [hgo], by simp [hgo], by simp [hgo]⟩
  · exact ⟨rfl, rfl, rfl, rfl, rfl⟩

/-! Concrete fixtures shared by witnesses and counterexamples. -/

/-- Card built from the static rank table, as `createDeck` does. -/
def mkCard (s : Suit) (r : Rank) : Card := { suit := s, rank := r, value := rankValue r }

/-- Sample player with an empty score. -/
def mkPlayer (nm pid : String) (hs : List Card) : Player :=
  { name := nm, id := pid, hands := hs, score := 0 }

/-- Placeholder gameOverData as initialised by the class constructor. -/
def initOverData (p : Player) : GameOverData :=
  { winner := p, score := [], isCurrentPlayer := false, isMultiPlayer := true }

/-- A freshly constructed game state for the given roster and controller. -/
def mkGame (ps : List Player) (ctrl : Player) : Game :=
  { players := ps, currentPlays := [], currentLeadCard := none, cardsPlayed := 0,
    message := "", gameOver := false, gameHistory := [], showStartButton := false,
    isShuffling := false, isDealing := false, accumulatedPoints := 0,
    lastPlayedSuit := none, currentControl := ctrl, deck := [],
    gameOverData := initOverData ctrl, gameTo := 10, playersToReconnect := [] }

def pAlice : Player := mkPlayer "Alice" "a" []

def pBob : Player := mkPlayer "Bob" "b" []

def pCara : Player := mkPlayer "Cara" "c" []

/-! Claims. -/

/-- C1: when the trick winner is the same player as the old currentControl
and the winning card has rank 6 or 7, a winning suit equal to
lastPlayedSuit earns cardPoints (3 for rank 6, 2 for rank 7) and replaces
the carry by cardPoints, while a differing suit earns cardPoints and adds
cardPoints to the old carry; a winning rank of 8 through K earns exactly 1
point and resets the carry to 0. -/
theorem claim_C1 (g : Game) (p0 : Play) (rest : List Play) (lead : Card) (w : Play)
    (h1 : g.currentPlays = p0 :: rest) (h2 : g.currentLeadCard = some lead)
    (hw : trickWinner lead.suit (p0 :: rest) = w)
    (hsame : w.player.id = g.currentControl.id) :
    ((w.card.rank = Rank.r6 ∨ w.card.rank = Rank.r7) →
      (g.lastPlayedSuit = some w.card.suit →
        (finishRoundEx g).2 = calculateCardPoints w.card ∧
        (finishRoundEx g).1.accumulatedPoints = calculateCardPoints w.card) ∧
      (g.lastPlayedSuit ≠ some w.card.suit →
        (finishRoundEx g).2 = calculateCardPoints w.card ∧
        (finishRoundEx g).1.accumulatedPoints =
          g.accumulatedPoints + calculateCardPoints w.card)) ∧
    (¬(w.card.rank = Rank.r6 ∨ w.card.rank = Rank.r7) →
      (finishRoundEx g).2 = 1 ∧ (finishRoundEx g).1.accumulatedPoints = 0) := by
  obtain ⟨e1, e2, -, -, -⟩ := finishRoundEx_fields g p0 rest lead h1 h2
  rw [hw] at e1 e2
  rw [e1, e2]
  have hnt : ¬(g.currentControl.id ≠ w.player.id ∧
      (w.card.rank = Rank.r6 ∨ w.card.rank = Rank.r7) ∧ w.card.suit = lead.suit) :=
    fun h => h.1 hsame.symm
  simp only [scoreTrick]
  rw [if_neg hnt, if_pos hsame]
  constructor
  · intro h67
    rw [if_pos h67]
    constructor
    · intro hls
      rw [if_pos hls]
      exact ⟨rfl, rfl⟩
    · intro hls
      rw [if_neg hls]
      exact ⟨rfl, rfl⟩
  · intro h67
    rw [if_neg h67]
    exact ⟨rfl, rfl⟩

/-- Fixture for the C1 witness: Alice controls, leads the 6 of spades,
Bob discards a heart; Alice wins her own trick with a rank-6 card whose
suit differs from the (empty) lastPlayedSuit, with a carry of 2. -/
def gC1 : Game :=
  { mkGame [pAlice, pBob] pAlice with
    currentPlays := [{ player := pAlice, card := mkCard .spade .r6 },
      { player := pBob, card := mkCard .love .r9 }]
    currentLeadCard := some (mkCard .spade .r6)
    accumulatedPoints := 2 }

/-- Witness for C1: on the fixture, the trick earns 3 points and the carry
becomes 2 + 3 = 5. -/
theorem claim_C1_witness :
    (finishRoundEx gC1).2 = 3 ∧ (finishRoundEx gC1).1.accumulatedPoints = 5 := by
  have h := claim_C1 gC1 { player := pAlice, card := mkCard .spade .r6 }
    [{ player := pBob, card := mkCard .love .r9 }] (mkCard .spade .r6)
    { player := pAlice, card := mkCard .spade .r6 } rfl rfl (by decide) (by decide)
  have hne := (h.1 (Or.inl (by decide))).2 (by decide)
  exact ⟨hne.1.trans (by decide), hne.2.trans (by decide)⟩

/-- C2: on a non-empty trick whose lead card is the first play's card, the
winning play follows the lead suit, has the maximal value among the
lead-suit plays, is the earliest play attaining that maximum, and its
owner becomes the new currentControl. -/
theorem claim_C2 (g : Game) (p0 : Play) (rest : List Play) (lead : Card) (w : Play)
    (h1 : g.currentPlays = p0 :: rest) (h2 : g.currentLeadCard = some lead)
    (h3 : p0.card = lead)
    (hw : trickWinner lead.suit (p0 :: rest) = w) :
    w ∈ p0 :: rest ∧
    w.card.suit = lead.suit ∧
    (∀ j, j < (p0 :: rest).length →
      ((p0 :: rest).getD j defaultPlay).card.suit = lead.suit →
      ((p0 :: rest).getD j defaultPlay).card.value ≤ w.card.value) ∧
    (∀ j, j < trickWinnerIdx lead.suit (p0 :: rest) →
      ((p0 :: rest).getD j defaultPlay).card.suit = lead.suit →
      ((p0 :: rest).getD j defaultPlay).card.value < w.card.value) ∧
    (finishRound g).currentControl = w.player := by
  obtain ⟨hi, hs, hmax, hearly⟩ := trickWinner_spec lead.suit p0 rest (by rw [h3])
  have hw' : (p0 :: rest).getD (trickWinnerIdx lead.suit (p0 :: rest)) defaultPlay = w := hw
  rw [hw'] at hs hmax hearly
  obtain ⟨-, -, -, e4, -⟩ := finishRoundEx_fields g p0 rest lead h1 h2
  rw [hw] at e4
  exact ⟨hw' ▸ getD_mem _ _ _ hi, hs, hmax, hearly, e4⟩

/-- Fixture for the C2 witness: Alice leads the 7 of spades, Bob plays the
king of spades, Cara discards a heart. -/
def gC2 : Game :=
  { mkGame [pAlice, pBob, pCara] pAlice with
    currentPlays := [{ player := pAlice, card := mkCard .spade .r7 },
      { player := pBob, card := mkCard .spade .rK },
      { player := pCara, card := mkCard .love .r6 }]
    currentLeadCard := some (mkCard .spade .r7) }

/-- Witness for C2: on the fixture Bob's king of spades wins the trick and
Bob takes control. -/
theorem claim_C2_witness :
    (finishRound gC2).currentControl = pBob ∧
    ({ player := pBob, card := mkCard .spade .rK } : Play) ∈ gC2.currentPlays := by
  have h := claim_C2 gC2 { player := pAlice, card := mkCard .spade .r7 }
    [{ player := pBob, card := mkCard .spade .rK },
      { player := pCara, card := mkCard .love .r6 }] (mkCard .spade .r7)
    { player := pBob, card := mkCard .spade .rK } rfl rfl rfl (by decide)
  exact ⟨h.2.2.2.2, h.1⟩

/-- C3: the validation checks of a submitted play run in the fixed order
(match over; actor not a participant; empty trick and actor not
currentControl; actor already played; must follow suit) and the first
failing check determines the rejection; in particular a lead card with a
holdable lead suit and an off-suit offer is rejected as an invalid move. -/
theorem claim_C3 (g : Game) (pid : String) (card : Card) (idx : Nat) :
    (g.gameOver = true →
      (playerPlayCard g pid card idx).1 =
        { error := "Game is over", message := " No more plays allowed." }) ∧
    (g.gameOver = false → findIdx0 (fun p => p.id = pid) g.players = none →
      (playerPlayCard g pid card idx).1 =
        { error := "Error", message := "Player not found." }) ∧
    (∀ i, g.gameOver = false → findIdx0 (fun p => p.id = pid) g.players = some i →
      g.currentPlays.length = 0 → g.currentControl.id ≠ pid →
      (playerPlayCard g pid card idx).1 =
        { error := "Error", message := "Only the round leader can play first." }) ∧
    (∀ i, g.gameOver = false → findIdx0 (fun p => p.id = pid) g.players = some i →
      ¬(g.currentPlays.length = 0 ∧ g.currentControl.id ≠ pid) →
      g.currentPlays.any (fun play => play.player.id = pid) = true →
      (playerPlayCard g pid card idx).1 =
        { error := "Error", message := "You have already played in this round." }) ∧
    (∀ i lead, g.gameOver = false → findIdx0 (fun p => p.id = pid) g.players = some i →
      ¬(g.currentPlays.length = 0 ∧ g.currentControl.id ≠ pid) →
      g.currentPlays.any (fun play => play.player.id = pid) = false →
      g.currentLeadCard = some lead →
      (g.players.getD i defaultPlayer).hands.any (fun c => c.suit = lead.suit) = true →
      card.suit ≠ lead.suit →
      (playerPlayCard g pid card idx).1.error = "Invalid Move") := by
  refine ⟨?_, ?_, ?_, ?_, ?_⟩
  · intro h
    simp [playerPlayCard, h]
  · intro h hnf
    simp [playerPlayCard, h, hnf]
  · intro i h hf hlen hctrl
    unfold playerPlayCard
    rw [if_neg (by simp [h]), hf]
    simp only []
    rw [if_pos ⟨hlen, hctrl⟩]
  · intro i h hf hno hal
    unfold playerPlayCard
    rw [if_neg (by simp [h]), hf]
    simp only []
    rw [if_neg hno, if_pos hal]
  · intro i lead h hf hno hal hlead hhas hcs
    unfold playerPlayCard
    rw [if_neg (by simp [h]), hf]
    simp only []
    rw [if_neg hno, if_neg (by simp [hal]), hlead]
    simp only []
    rw [if_pos ⟨hhas, hcs⟩]

def pDan : Player := mkPlayer "Dan" "d" []

def pEve : Player := mkPlayer "Eve" "e" [mkCard .spade .r6, mkCard .love .r6]

/-- Fixture for the C3 witness: Dan led the 10 of spades; Eve holds the 6
of spades and the 6 of hearts and offers the heart. -/
def gC3 : Game :=
  { mkGame [pDan, pEve] pDan with
    currentPlays := [{ player := pDan, card := mkCard .spade .r10 }]
    currentLeadCard := some (mkCard .spade .r10) }

/-- Witness for C3: Eve's off-suit offer while holding the lead suit is
rejected as an invalid move. -/
theorem claim_C3_witness :
    (playerPlayCard gC3 "e" (mkCard .love .r6) 1).1.error = "Invalid Move" := by
  exact (claim_C3 gC3 "e" (mkCard .love .r6) 1).2.2.2.2 1 (mkCard .spade .r10)
    rfl (by decide) (by decide) (by decide) rfl (by decide) (by decide)

def pFay : Player := mkPlayer "Fay" "f" [mkCard .spade .r6, mkCard .spade .r7]

def pGil : Player := mkPlayer "Gil" "g" []

/-- Fixture for C8: Fay controls an empty trick, holds the 6 and 7 of
spades, and offers the 6 of spades while passing hand index 1. -/
def gC8 : Game := mkGame [pFay, pGil] pFay

/-- Counterexample for C8: the play is accepted, yet with hand index 1 the
named 6 of spades stays in Fay's hand - the card at the index (the 7 of
spades) is removed instead, so the named card is not removed for every
hand index. -/
theorem claim_C8_counterexample :
    (playerPlayCard gC8 "f" (mkCard .spade .r6) 1).1 = { error := "", message := "" } ∧
    ((playerPlayCard gC8 "f" (mkCard .spade .r6) 1).2.players.getD 0 defaultPlayer).hands =
      [mkCard .spade .r6] := by
  decide

/-- C8 as amended: for every play that passes all validation checks, the
card at the passed hand index is removed from the actor's hand (the named
card only when the index points at it), a Play for the named offered card
is appended to currentPlays, and if this is the trick's first Play,
currentLeadCard is fixed to the named card. -/
theorem claim_C8_amended (g : Game) (pid : String) (card : Card) (idx i : Nat)
    (hgo : g.gameOver = false)
    (hf : findIdx0 (fun p => p.id = pid) g.players = some i)
    (hno : ¬(g.currentPlays.length = 0 ∧ g.currentControl.id ≠ pid))
    (hal : g.currentPlays.any (fun play => play.player.id = pid) = false)
    (hfollow : ∀ lead, g.currentLeadCard = some lead →
      ¬((g.players.getD i defaultPlayer).hands.any (fun c => c.suit = lead.suit) = true ∧
        card.suit ≠ lead.suit)) :
    (playerPlayCard g pid card idx).1 = { error := "", message := "" } ∧
    (playerPlayCard g pid card idx).2.players =
      g.players.set i { g.players.getD i defaultPlayer with
        hands := (g.players.getD i defaultPlayer).hands.eraseIdx idx } ∧
    (playerPlayCard g pid card idx).2.currentPlays =
      g.currentPlays ++ [{ player := { g.players.getD i defaultPlayer with
        hands := (g.players.getD i defaultPlayer).hands.eraseIdx idx }, card := card }] ∧
    (playerPlayCard g pid card idx).2.currentLeadCard =
      (if g.currentPlays.length = 0 then some card else g.currentLeadCard) := by
  have hib : i < g.players.length := (findIdx0_bounds _ g.players i hf).1
  have happ :
      playerPlayCard g pid card idx = ({ error := "", message := "" }, applyPlay g i card idx) := by
    unfold playerPlayCard
    rw [if_neg (by simp [hgo]), hf]
    simp only []
    rw [if_neg hno, if_neg (by simp [hal])]
    cases hl : g.currentLeadCard with
    | none => rfl
    | some lead =>
      simp only []
      rw [if_neg (hfollow lead hl)]
  rw [happ]
  unfold applyPlay playCard
  simp only []
  rw [getD_set_self g.players i _ defaultPlayer hib]
  split
  · refine ⟨?_, ?_, ?_, ?_⟩ <;> trivial
  · refine ⟨?_, ?_, ?_, ?_⟩ <;> trivial

/-- Witness for the amended C8: on the Fay fixture the accepted play
appends a Play for the named 6 of spades, fixes it as the lead, and Fay's
hand loses the card at index 1. -/
theorem claim_C8_amended_witness :
    (playerPlayCard gC8 "f" (mkCard .spade .r6) 1).2.currentPlays =
      [{ player := { pFay with hands := [mkCard .spade .r6] }, card := mkCard .spade .r6 }] ∧
    (playerPlayCard gC8 "f" (mkCard .spade .r6) 1).2.currentLeadCard =
      some (mkCard .spade .r6) ∧
    (playerPlayCard gC8 "f" (mkCard .spade .r6) 1).2.players =
      [{ pFay with hands := [mkCard .spade .r6] }, pGil] := by
  have h := claim_C8_amended gC8 "f" (mkCard .spade .r6) 1 0 rfl (by decide) (by decide)
    (by decide) (by intro lead hl; simp [gC8, mkGame] at hl)
  exact ⟨h.2.2.1.trans (by decide), h.2.2.2.trans (by decide), h.2.1.trans (by decide)⟩

/-- The control-transfer repair step never touches the scoring carry. -/
theorem repairControl_carry (g : Game) (rrl : Nat) (pid : String) (i : Nat) :
    (repairControl g rrl pid i).accumulatedPoints = g.accumulatedPoints ∧
    (repairControl g rrl pid i).lastPlayedSuit = g.lastPlayedSuit := by
  unfold repairControl
  split <;> exact ⟨rfl, rfl⟩

/-- The lead-recomputation repair step never touches the scoring carry. -/
theorem repairLead_carry (g : Game) (pid : String) :
    (repairLead g pid).accumulatedPoints = g.accumulatedPoints ∧
    (repairLead g pid).lastPlayedSuit = g.lastPlayedSuit := by
  unfold repairLead
  split
  · exact ⟨rfl, rfl⟩
  · split <;> exact ⟨rfl, rfl⟩

/-- The play-removal repair step never touches the scoring carry. -/
theorem repairPlays_carry (g : Game) (pid : String) (i : Nat) :
    (repairPlays g pid i).accumulatedPoints = g.accumulatedPoints ∧
    (repairPlays g pid i).lastPlayedSuit = g.lastPlayedSuit := by
  unfold repairPlays
  split <;> exact ⟨rfl, rfl⟩

/-- The disconnect repair steps never touch the scoring carry state. -/
theorem disconnectRepair_carry (g : Game) (rrl : Nat) (pid : String) (i : Nat) :
    (disconnectRepair g rrl pid i).1.accumulatedPoints = g.accumulatedPoints ∧
    (disconnectRepair g rrl pid i).1.lastPlayedSuit = g.lastPlayedSuit := by
  unfold disconnectRepair
  simp only []
  obtain ⟨a1, a2⟩ := repairControl_carry g rrl pid i
  obtain ⟨b1, b2⟩ := repairLead_carry (repairControl g rrl pid i) pid
  obtain ⟨c1, c2⟩ := repairPlays_carry (repairLead (repairControl g rrl pid i) pid) pid i
  exact ⟨c1.trans (b1.trans a1), c2.trans (b2.trans a2)⟩

/-- Fixture for the C4 counterexample: Alice controls with a carry of 5
and lastPlayedSuit spade; the room shrinks to 2 players as she leaves. -/
def gC4 : Game :=
  { mkGame [pAlice, pBob, pCara] pAlice with
    accumulatedPoints := 5
    lastPlayedSuit := some Suit.spade }

/-- Counterexample for C4: the disconnect repair transfers control away
from Alice but neither resets accumulatedPoints to 0 nor lastPlayedSuit
to none. -/
theorem claim_C4_counterexample :
    (handleDisconnectGame gC4 2 "a").1.currentControl.id ≠ gC4.currentControl.id ∧
    (handleDisconnectGame gC4 2 "a").1.accumulatedPoints = 5 ∧
    (handleDisconnectGame gC4 2 "a").1.lastPlayedSuit = some Suit.spade := by
  decide

/-- C4 as amended: when trick resolution changes currentControl,
accumulatedPoints is reset to 0, and lastPlayedSuit is reset to none
exactly when the winning rank is 8 through K (a winning rank of 6 or 7
records the winning suit instead); the disconnect-repair path never
touches accumulatedPoints or lastPlayedSuit, even when it transfers
control. -/
theorem claim_C4_amended :
    (∀ (g : Game) (p0 : Play) (rest : List Play) (lead : Card) (w : Play),
      g.currentPlays = p0 :: rest → g.currentLeadCard = some lead →
      trickWinner lead.suit (p0 :: rest) = w →
      w.player.id ≠ g.currentControl.id →
      (finishRound g).accumulatedPoints = 0 ∧
      ((w.card.rank = Rank.r6 ∨ w.card.rank = Rank.r7) →
        (finishRound g).lastPlayedSuit = some w.card.suit) ∧
      (¬(w.card.rank = Rank.r6 ∨ w.card.rank = Rank.r7) →
        (finishRound g).lastPlayedSuit = none)) ∧
    (∀ (g : Game) (rrl : Nat) (pid : String) (i : Nat),
      findIdx0 (fun p => p.id = pid) g.players = some i →
      ¬((disconnectRepair g rrl pid i).1.currentPlays.length = rrl ∧
        2 ≤ (disconnectRepair g rrl pid i).1.currentPlays.length) →
      (handleDisconnectGame g rrl pid).1.accumulatedPoints = g.accumulatedPoints ∧
      (handleDisconnectGame g rrl pid).1.lastPlayedSuit = g.lastPlayedSuit) := by
  constructor
  · intro g p0 rest lead w h1 h2 hw hchange
    obtain ⟨-, e2, e3, -, -⟩ := finishRoundEx_fields g p0 rest lead h1 h2
    rw [hw] at e2 e3
    have hold : g.currentControl.id ≠ w.player.id := fun h => hchange h.symm
    unfold finishRound
    rw [e2, e3]
    simp only [scoreTrick]
    refine ⟨?_, ?_, ?_⟩
    · by_cases ht : g.currentControl.id ≠ w.player.id ∧
          (w.card.rank = Rank.r6 ∨ w.card.rank = Rank.r7) ∧ w.card.suit = lead.suit
      · rw [if_pos ht]
      · rw [if_neg ht, if_neg (fun h : w.player.id = g.currentControl.id => hchange h)]
    · intro h67
      rw [if_pos h67]
    · intro h67
      rw [if_neg h67, if_pos hold]
  · intro g rrl pid i hf htrig
    unfold handleDisconnectGame
    rw [hf]
    simp only []
    rw [if_neg htrig]
    exact disconnectRepair_carry g rrl pid i

/-- Fixture for the C4 amended witness: Bob takes the trick from Alice
with the king of spades while Alice holds a carry of 4. -/
def gC4b : Game :=
  { mkGame [pAlice, pBob] pAlice with
    currentPlays := [{ player := pAlice, card := mkCard .spade .r6 },
      { player := pBob, card := mkCard .spade .rK }]
    currentLeadCard := some (mkCard .spade .r6)
    accumulatedPoints := 4
    lastPlayedSuit := some Suit.diamond }

/-- Witness for the amended C4: the rank-K control transfer resets the
carry and the last-played suit, and the disconnect repair on the Alice
fixture leaves the carry state untouched. -/
theorem claim_C4_amended_witness :
    ((finishRound gC4b).accumulatedPoints = 0 ∧ (finishRound gC4b).lastPlayedSuit = none) ∧
    ((handleDisconnectGame gC4 2 "a").1.accumulatedPoints = gC4.accumulatedPoints ∧
      (handleDisconnectGame gC4 2 "a").1.lastPlayedSuit = gC4.lastPlayedSuit) := by
  have h1 := claim_C4_amended.1 gC4b { player := pAlice, card := mkCard .spade .r6 }
    [{ player := pBob, card := mkCard .spade .rK }] (mkCard .spade .r6)
    { player := pBob, card := mkCard .spade .rK } rfl rfl (by decide) (by decide)
  have h2 := claim_C4_amended.2 gC4 2 "a" 0 (by decide) (by decide)
  exact ⟨⟨h1.1, h1.2.2 (by decide)⟩, h2⟩

theorem trickWinnerIdx_lt (ls : Suit) (p0 : Play) (rest : List Play) :
    trickWinnerIdx ls (p0 :: rest) < (p0 :: rest).length := by
  obtain ⟨-, -, h⟩ := winnerLoop_spec ls rest 1 0 p0.card.value
  have hidx : trickWinnerIdx ls (p0 :: rest) = (winnerLoop ls rest 1 0 p0.card.value).1 := rfl
  rcases h with ⟨e1, -, -⟩ | ⟨k, hk, e1, -⟩
  · rw [hidx, e1]
    simp
  · rw [hidx, e1]
    simp only [List.length_cons]
    omega

theorem repairControl_players (g : Game) (rrl : Nat) (pid : String) (i : Nat) :
    (repairControl g rrl pid i).players = g.players := by
  unfold repairControl
  split <;> rfl

theorem repairControl_control_pos (g : Game) (rrl : Nat) (pid : String) (i : Nat)
    (h : g.currentControl.id = pid ∧ 2 ≤ rrl) :
    (repairControl g rrl pid i).currentControl =
      g.players.getD ((i + 1) % g.players.length) defaultPlayer := by
  unfold repairControl
  rw [if_pos h]

theorem repairLead_roster (g : Game) (pid : String) :
    (repairLead g pid).players = g.players ∧
    (repairLead g pid).currentControl = g.currentControl := by
  unfold repairLead
  split
  · exact ⟨rfl, rfl⟩
  · split <;> exact ⟨rfl, rfl⟩

theorem repairPlays_roster (g : Game) (pid : String) (i j : Nat) (d : Player) (h : j ≠ i) :
    (repairPlays g pid i).players.getD j d = g.players.getD j d ∧
    (repairPlays g pid i).players.length = g.players.length ∧
    (repairPlays g pid i).currentControl = g.currentControl := by
  unfold repairPlays
  split
  · exact ⟨getD_set_ne _ _ _ _ _ h, List.length_set _ _ _, rfl⟩
  · exact ⟨rfl, rfl, rfl⟩

/-- Fixture for the C7 counterexample: a 2-player match in which the
controller disconnects, shrinking the room roster to a single player. -/
def gC7 : Game := mkGame [pAlice, pBob] pAlice

/-- Counterexample for C7: after the controller of a 2-player match
disconnects, currentControl still names the departed player, who is not a
member of the surviving roster. -/
theorem claim_C7_counterexample :
    ¬ (handleDisconnectGame gC7 1 "a").1.currentControl.id ∈
      (handleDisconnectGame gC7 1 "a").1.players.map Player.id := by
  decide

/-- C7 as amended: currentControl is a single field, so exactly one player
holds control; after trick resolution the controller is a roster member
whenever every play of the trick was made by a roster member, and after
disconnect repair the controller is a roster member whenever the shrunk
room roster retains at least 2 players; with fewer remaining (the
2-player case) control stays with the departed player. -/
theorem claim_C7_amended :
    (∀ (g : Game) (p0 : Play) (rest : List Play) (lead : Card) (w : Play),
      g.currentPlays = p0 :: rest → g.currentLeadCard = some lead →
      trickWinner lead.suit (p0 :: rest) = w →
      (∀ q ∈ p0 :: rest, q.player.id ∈ g.players.map Player.id) →
      (finishRound g).currentControl.id ∈ (finishRound g).players.map Player.id) ∧
    (∀ (g : Game) (rrl : Nat) (pid : String) (i : Nat),
      findIdx0 (fun p => p.id = pid) g.players = some i →
      2 ≤ g.players.length →
      g.currentControl.id = pid → 2 ≤ rrl →
      ¬((disconnectRepair g rrl pid i).1.currentPlays.length = rrl ∧
        2 ≤ (disconnectRepair g rrl pid i).1.currentPlays.length) →
      (handleDisconnectGame g rrl pid).1.currentControl ∈
        (handleDisconnectGame g rrl pid).1.players) := by
  constructor
  · intro g p0 rest lead w h1 h2 hw hq
    obtain ⟨-, -, -, e4, e5⟩ := finishRoundEx_fields g p0 rest lead h1 h2
    rw [hw] at e4
    have hmem : w ∈ p0 :: rest := by
      rw [← hw]
      exact getD_mem _ _ _ (trickWinnerIdx_lt lead.suit p0 rest)
    have : (finishRound g).currentControl.id ∈ g.players.map Player.id := by
      unfold finishRound
      rw [e4]
      exact hq w hmem
    unfold finishRound at this ⊢
    rw [e5]
    exact this
  · intro g rrl pid i hf hlen hctrl hroom htrig
    have hi := (findIdx0_bounds _ g.players i hf).1
    have hj : (i + 1) % g.players.length < g.players.length := mod_lt_of_lt hi
    unfold handleDisconnectGame
    rw [hf]
    simp only []
    rw [if_neg htrig]
    unfold disconnectRepair
    simp only []
    obtain ⟨hL1, hL2⟩ := repairLead_roster (repairControl g rrl pid i) pid
    have hji : (i + 1) % g.players.length ≠ i := mod_succ_ne hi hlen
    obtain ⟨hP1, hP2, hP3⟩ :=
      repairPlays_roster (repairLead (repairControl g rrl pid i) pid) pid i
        ((i + 1) % g.players.length) defaultPlayer hji
    have hc3 : (repairPlays (repairLead (repairControl g rrl pid i) pid) pid i).currentControl =
        g.players.getD ((i + 1) % g.players.length) defaultPlayer := by
      rw [hP3, hL2, repairControl_control_pos g rrl pid i ⟨hctrl, hroom⟩]
    have hg3 : (repairPlays (repairLead (repairControl g rrl pid i) pid) pid i).players.getD
        ((i + 1) % g.players.length) defaultPlayer =
        g.players.getD ((i + 1) % g.players.length) defaultPlayer := by
      rw [hP1, hL1, repairControl_players]
    have hg3len :
        (repairPlays (repairLead (repairControl g rrl pid i) pid) pid i).players.length =
          g.players.length := by
      rw [hP2, hL1, repairControl_players]
    show (repairPlays (repairLead (repairControl g rrl pid i) pid) pid i).currentControl ∈
      (repairPlays (repairLead (repairControl g rrl pid i) pid) pid i).players.eraseIdx i
    rw [hc3, ← hg3]
    exact getD_mem_eraseIdx _ i _ defaultPlayer (by rw [hg3len]; exact hj) hji

/-- Witness for the amended C7: Bob wins the gC2 trick and is a roster
member, and on the 3-player disconnect fixture the transferred controller
is a member of the surviving roster. -/
theorem claim_C7_amended_witness :
    (finishRound gC2).currentControl.id ∈ (finishRound gC2).players.map Player.id ∧
    (handleDisconnectGame gC4 2 "a").1.currentControl ∈
      (handleDisconnectGame gC4 2 "a").1.players := by
  constructor
  · exact claim_C7_amended.1 gC2 { player := pAlice, card := mkCard .spade .r7 }
      [{ player := pBob, card := mkCard .spade .rK },
        { player := pCara, card := mkCard .love .r6 }] (mkCard .spade .r7)
      { player := pBob, card := mkCard .spade .rK } rfl rfl (by decide) (by decide)
  · exact claim_C7_amended.2 gC4 2 "a" 0 (by decide) (by decide) (by decide) (by decide)
      (by decide)

theorem repairControl_fields (g : Game) (rrl : Nat) (pid : String) (i : Nat) :
    (repairControl g rrl pid i).currentPlays = g.currentPlays ∧
    (repairControl g rrl pid i).currentLeadCard = g.currentLeadCard := by
  unfold repairControl
  split <;> exact ⟨rfl, rfl⟩

theorem repairLead_eq_pos (g : Game) (pid : String) (q0 : Play) (qrest : List Play)
    (hplays : g.currentPlays = q0 :: qrest) (hlead : g.currentLeadCard.isSome = true)
    (hq0 : q0.player.id = pid) :
    repairLead g pid = { g with currentLeadCard := qrest.head?.map Play.card } := by
  unfold repairLead
  rw [hplays]
  simp only []
  rw [if_pos ⟨hlead, hq0⟩]

theorem repairPlays_eq_pos (g : Game) (pid : String) (i : Nat) (q0 : Play) (qrest : List Play)
    (hplays : g.currentPlays = q0 :: qrest) (hq0 : q0.player.id = pid)
    (hrest : ∀ q ∈ qrest, q.player.id ≠ pid) :
    repairPlays g pid i =
      { g with
        players := g.players.set i
          { g.players.getD i defaultPlayer with
            hands := (g.players.getD i defaultPlayer).hands ++ [q0.card] }
        currentPlays := qrest } := by
  have hfilt : (q0 :: qrest).filter (fun p => ¬ p.player.id = pid) = qrest := by
    rw [List.filter_cons]
    have hq : (decide ¬(q0.player.id = pid)) = false := by simp [hq0]
    rw [hq]
    simp only [Bool.false_eq_true, if_false]
    exact List.filter_eq_self.mpr (fun q hq => by simpa using hrest q hq)
  unfold repairPlays
  rw [hplays]
  have hfind : (q0 :: qrest).find? (fun p => p.player.id = pid) = some q0 :=
    List.find?_cons_of_pos _ (by simp [hq0])
  rw [hfind]
  simp only [Option.map_some']
  rw [hfilt]

/-- C5: on disconnect of a participant during an open trick who authored
the trick's first Play, currentLeadCard is recomputed to the second
Play's card when one exists and cleared otherwise; the played card is
returned to the player's hand snapshot and the Play removed from
currentPlays; the player is removed from the roster; and trick resolution
runs immediately exactly when the remaining plays now equal the shrunk
room roster size and are at least 2. -/
theorem claim_C5 (g : Game) (rrl : Nat) (pid : String) (i : Nat) (q0 : Play)
    (qrest : List Play) (c0 : Card)
    (hf : findIdx0 (fun p => p.id = pid) g.players = some i)
    (hplays : g.currentPlays = q0 :: qrest)
    (hq0 : q0.player.id = pid)
    (hlead : g.currentLeadCard = some c0)
    (hrest : ∀ q ∈ qrest, q.player.id ≠ pid) :
    (disconnectRepair g rrl pid i).1.currentLeadCard = qrest.head?.map Play.card ∧
    (disconnectRepair g rrl pid i).2.player.hands =
      (g.players.getD i defaultPlayer).hands ++ [q0.card] ∧
    (disconnectRepair g rrl pid i).1.currentPlays = qrest ∧
    (disconnectRepair g rrl pid i).1.players = g.players.eraseIdx i ∧
    (handleDisconnectGame g rrl pid).2 = some (disconnectRepair g rrl pid i).2 ∧
    (qrest.length = rrl ∧ 2 ≤ qrest.length →
      (handleDisconnectGame g rrl pid).1 = finishRound (disconnectRepair g rrl pid i).1) ∧
    (¬(qrest.length = rrl ∧ 2 ≤ qrest.length) →
      (handleDisconnectGame g rrl pid).1 = (disconnectRepair g rrl pid i).1) := by
  have hiB := (findIdx0_bounds _ g.players i hf).1
  obtain ⟨f1, f2⟩ := repairControl_fields g rrl pid i
  have f3 := repairControl_players g rrl pid i
  have hl1 : repairLead (repairControl g rrl pid i) pid =
      { repairControl g rrl pid i with currentLeadCard := qrest.head?.map Play.card } :=
    repairLead_eq_pos _ pid q0 qrest (f1.trans hplays) (by rw [f2, hlead]; rfl) hq0
  have hg3 : repairPlays (repairLead (repairControl g rrl pid i) pid) pid i =
      { repairControl g rrl pid i with
        currentLeadCard := qrest.head?.map Play.card
        players := (repairControl g rrl pid i).players.set i
          { (repairControl g rrl pid i).players.getD i defaultPlayer with
            hands := ((repairControl g rrl pid i).players.getD i defaultPlayer).hands ++
              [q0.card] }
        currentPlays := qrest } := by
    rw [hl1]
    exact repairPlays_eq_pos _ pid i q0 qrest (f1.trans hplays) hq0 hrest
  have hiB1 : i < (repairControl g rrl pid i).players.length := by rw [f3]; exact hiB
  have hc1 : (disconnectRepair g rrl pid i).1.currentLeadCard =
      qrest.head?.map Play.card := by
    unfold disconnectRepair
    simp only [hg3]
  have hc2 : (disconnectRepair g rrl pid i).2.player.hands =
      (g.players.getD i defaultPlayer).hands ++ [q0.card] := by
    unfold disconnectRepair
    simp only [hg3]
    rw [getD_set_self _ _ _ _ hiB1]
    simp only [f3]
  have hc3 : (disconnectRepair g rrl pid i).1.currentPlays = qrest := by
    unfold disconnectRepair
    simp only [hg3]
  have hc4 : (disconnectRepair g rrl pid i).1.players = g.players.eraseIdx i := by
    unfold disconnectRepair
    simp only [hg3]
    rw [eraseIdx_set_self]
    simp only [f3]
  have hD : handleDisconnectGame g rrl pid =
      (if (disconnectRepair g rrl pid i).1.currentPlays.length = rrl ∧
          2 ≤ (disconnectRepair g rrl pid i).1.currentPlays.length then
        finishRound (disconnectRepair g rrl pid i).1
      else (disconnectRepair g rrl pid i).1, some (disconnectRepair g rrl pid i).2) := by
    unfold handleDisconnectGame
    rw [hf]
  refine ⟨hc1, hc2, hc3, hc4, ?_, ?_, ?_⟩
  · rw [hD]
  · intro ht
    rw [hD]
    simp only []
    rw [if_pos (by rw [hc3]; exact ht)]
  · intro ht
    rw [hD]
    simp only []
    rw [if_neg (by rw [hc3]; exact ht)]

/-- Fixture for the C5 witness: a 3-player trick with two plays submitted,
in which Alice, author of the lead play, disconnects while the room
shrinks to 2 players. -/
def gC5 : Game :=
  { mkGame [pAlice, pBob, pCara] pAlice with
    currentPlays := [{ player := pAlice, card := mkCard .spade .r10 },
      { player := pBob, card := mkCard .spade .r9 }]
    currentLeadCard := some (mkCard .spade .r10) }

/-- Witness for C5: Alice's disconnect shifts the lead to Bob's 9 of
spades, returns the 10 of spades to her snapshot hand, leaves Bob's play
as the whole trick, and - the remaining play count (1) differing from the
shrunk roster size (2) - does not resolve the trick. -/
theorem claim_C5_witness :
    (disconnectRepair gC5 2 "a" 0).1.currentLeadCard = some (mkCard .spade .r9) ∧
    (disconnectRepair gC5 2 "a" 0).2.player.hands = [mkCard .spade .r10] ∧
    (disconnectRepair gC5 2 "a" 0).1.currentPlays =
      [{ player := pBob, card := mkCard .spade .r9 }] ∧
    (handleDisconnectGame gC5 2 "a").1 = (disconnectRepair gC5 2 "a" 0).1 := by
  have h := claim_C5 gC5 2 "a" 0 { player := pAlice, card := mkCard .spade .r10 }
    [{ player := pBob, card := mkCard .spade .r9 }] (mkCard .spade .r10)
    (by decide) rfl (by decide) rfl (by decide)
  exact ⟨h.1.trans (by decide), h.2.1.trans (by decide), h.2.2.1,
    h.2.2.2.2.2.2 (by decide)⟩

/-- C6: for a reconnection with a valid record, the player (rebound to the
new socket id) is pushed directly onto the live roster exactly when the
observable state equals the snapshot captured at disconnect or the trick
counter equals 5 minus the saved hand size, and is otherwise queued on
playersToReconnect for the next trick boundary; the comparison is made
against the state after the dedupe and early-resolution stage. -/
theorem claim_C6 (g : Game) (savedPlayer : Player) (gameSate : CardsGameState)
    (roomPlayersLen : Nat) (sockId : String) :
    (gameSate = getState (reconnStage g roomPlayersLen sockId) ∨
        ((reconnStage g roomPlayersLen sockId).cardsPlayed : Int) =
          5 - (({ savedPlayer with id := sockId } : Player).hands.length : Int) →
      (handleReconnectionGame g savedPlayer gameSate roomPlayersLen sockId).1.players =
        (reconnStage g roomPlayersLen sockId).players ++ [{ savedPlayer with id := sockId }] ∧
      (handleReconnectionGame g savedPlayer gameSate roomPlayersLen sockId).1.playersToReconnect =
        (reconnStage g roomPlayersLen sockId).playersToReconnect ∧
      (handleReconnectionGame g savedPlayer gameSate roomPlayersLen sockId).2 = true) ∧
    (¬(gameSate = getState (reconnStage g roomPlayersLen sockId) ∨
        ((reconnStage g roomPlayersLen sockId).cardsPlayed : Int) =
          5 - (({ savedPlayer with id := sockId } : Player).hands.length : Int)) →
      (handleReconnectionGame g savedPlayer gameSate roomPlayersLen sockId).1.players =
        (reconnStage g roomPlayersLen sockId).players ∧
      (handleReconnectionGame g savedPlayer gameSate roomPlayersLen sockId).1.playersToReconnect =
        (reconnStage g roomPlayersLen sockId).playersToReconnect ++
          [{ savedPlayer with id := sockId }] ∧
      (handleReconnectionGame g savedPlayer gameSate roomPlayersLen sockId).2 = false) := by
  unfold handleReconnectionGame
  simp only []
  constructor
  · intro h
    rw [if_pos h]
    exact ⟨rfl, rfl, rfl⟩
  · intro h
    rw [if_neg h]
    exact ⟨rfl, rfl, rfl⟩

def pZoe : Player := mkPlayer "Zoe" "z0" [mkCard .club .r9, mkCard .club .r10]

def pYan : Player := mkPlayer "Yan" "y0" [mkCard .club .r9]

/-- Fixture for the C6 witness: a running game with 3 completed tricks. -/
def gC6 : Game := { mkGame [pBob, pCara] pBob with cardsPlayed := 3 }

/-- Witness for C6: Zoe, whose saved hand of 2 cards matches the 3
completed tricks (3 = 5 - 2), is inserted live; Yan, whose saved hand of
1 card does not match and whose snapshot differs from the current state,
is queued for the next trick boundary. -/
theorem claim_C6_witness :
    (handleReconnectionGame gC6 pZoe (getState gC6) 3 "z").1.players =
      (reconnStage gC6 3 "z").players ++ [{ pZoe with id := "z" }] ∧
    (handleReconnectionGame gC6 pZoe (getState gC6) 3 "z").2 = true ∧
    (handleReconnectionGame gC6 pYan (getState gC7) 3 "z").1.playersToReconnect =
      (reconnStage gC6 3 "z").playersToReconnect ++ [{ pYan with id := "z" }] ∧
    (handleReconnectionGame gC6 pYan (getState gC7) 3 "z").2 = false := by
  have ha := (claim_C6 gC6 pZoe (getState gC6) 3 "z").1 (Or.inr (by decide))
  have hb := (claim_C6 gC6 pYan (getState gC7) 3 "z").2 (by decide)
  exact ⟨ha.1, ha.2.2, hb.2.1, hb.2.2⟩

theorem dealCards_eq (players : List Player) (deck : List Card) :
    dealCards players deck =
      (List.zipWith (· ++ ·) (dealRound 3 players.length deck).1
        (dealRound 2 players.length (deck.drop (3 * players.length))).1,
       (deck.drop (3 * players.length)).drop (2 * players.length)) := by
  unfold dealCards
  simp only []
  rw [dealRound_snd 3 players.length deck, dealRound_snd 2 players.length]

/-- Hands produced by a full deal: one hand per player, each hand the
3-card front block followed by the 2-card second-round block, of length 5
when the deck suffices. -/
theorem dealCards_hands (players : List Player) (deck : List Card)
    (hlen : 5 * players.length ≤ deck.length) :
    (dealCards players deck).1.length = players.length ∧
    (∀ i, i < players.length →
      (dealCards players deck).1.getD i [] =
        (deck.drop (3 * i)).take 3 ++
          ((deck.drop (3 * players.length)).drop (2 * i)).take 2 ∧
      ((dealCards players deck).1.getD i []).length = 5) := by
  rw [dealCards_eq]
  have hl1 : (dealRound 3 players.length deck).1.length = players.length :=
    dealRound_fst_length 3 players.length deck
  have hl2 : (dealRound 2 players.length (deck.drop (3 * players.length))).1.length =
      players.length :=
    dealRound_fst_length 2 players.length (deck.drop (3 * players.length))
  constructor
  · simp [List.length_zipWith, hl1, hl2]
  · intro i hi
    have hz := getD_zipWith_append (dealRound 3 players.length deck).1
      (dealRound 2 players.length (deck.drop (3 * players.length))).1 i
      (by rw [hl1]; exact hi) (by rw [hl2]; exact hi)
    have h1 := dealRound_getD 3 players.length deck i hi
    have h2 := dealRound_getD 2 players.length (deck.drop (3 * players.length)) i hi
    constructor
    · simp only []
      rw [hz, h1, h2]
    · simp only []
      rw [hz, h1, h2]
      rw [List.length_append, List.length_take, List.length_take, List.length_drop,
        List.length_drop, List.length_drop]
      omega

/-- The deal is conservative: the dealt hands and the remaining deck are a
permutation of the input deck. -/
theorem dealCards_perm (players : List Player) (deck : List Card) :
    List.Perm ((dealCards players deck).1.flatten ++ (dealCards players deck).2) deck := by
  rw [dealCards_eq]
  simp only []
  have hp := zipWith_append_flatten_perm (dealRound 3 players.length deck).1
    (dealRound 2 players.length (deck.drop (3 * players.length))).1
    (by rw [dealRound_fst_length, dealRound_fst_length])
  refine (hp.append_right _).trans ?_
  rw [dealRound_flatten 3 players.length deck,
    dealRound_flatten 2 players.length (deck.drop (3 * players.length)),
    List.append_assoc, List.take_append_drop, List.take_append_drop]

/-- C9: with at least 5 cards per player, the deal gives every player the
5 cards drawn from the front of the deck in player order (the 3-card
round then the 2-card round), and the hands plus the remaining deck are a
permutation of the input deck. -/
theorem claim_C9 (players : List Player) (deck : List Card)
    (hlen : 5 * players.length ≤ deck.length) :
    (dealCards players deck).1.length = players.length ∧
    (∀ i, i < players.length →
      (dealCards players deck).1.getD i [] =
        (deck.drop (3 * i)).take 3 ++
          ((deck.drop (3 * players.length)).drop (2 * i)).take 2 ∧
      ((dealCards players deck).1.getD i []).length = 5) ∧
    List.Perm ((dealCards players deck).1.flatten ++ (dealCards players deck).2) deck := by
  obtain ⟨h1, h2⟩ := dealCards_hands players deck hlen
  exact ⟨h1, h2, dealCards_perm players deck⟩

/-- Witness for C9: dealing the fixed 32-card deck to 2 players gives 2
hands whose union with the remaining deck is a permutation of the deck. -/
theorem claim_C9_witness :
    (dealCards [pAlice, pBob] createDeck).1.length = 2 ∧
    ((dealCards [pAlice, pBob] createDeck).1.getD 0 []).length = 5 ∧
    List.Perm ((dealCards [pAlice, pBob] createDeck).1.flatten ++
      (dealCards [pAlice, pBob] createDeck).2) createDeck := by
  have h := claim_C9 [pAlice, pBob] createDeck (by decide)
  exact ⟨h.1.trans (by decide), (h.2.1 0 (by decide)).2, h.2.2⟩

/-- Fixture for the C10 witness: a fresh 2-player game with an empty deck,
forcing the reshuffle branch. -/
def gC10 : Game := mkGame [pAlice, pBob] pAlice

/-- C10: the deal degrades to a short hand only when the input deck cannot
cover 5 cards per player; and the session's handleGameState replaces any
deck below players.length * 5 cards by a fresh shuffled 32-card deck, so
that for a session roster of at most 4 players the deal always has at
least 5 cards per player available, every dealt hand has exactly 5 cards,
and no draw comes from an empty deck. -/
theorem claim_C10 :
    (∀ (players : List Player) (deck : List Card),
      (∃ h ∈ (dealCards players deck).1, h.length ≠ 5) →
      deck.length < 5 * players.length) ∧
    (∀ (g : Game) (fresh : List Card), List.Perm fresh createDeck →
      g.players.length ≤ 4 →
      5 * g.players.length ≤ (deckForDeal g fresh).length ∧
      (∀ h ∈ (dealCards g.players (deckForDeal g fresh)).1, h.length = 5) ∧
      (handleGameState g fresh).deck =
        (dealCards g.players (deckForDeal g fresh)).2) := by
  have hall : ∀ (players : List Player) (deck : List Card),
      5 * players.length ≤ deck.length →
      ∀ h ∈ (dealCards players deck).1, h.length = 5 := by
    intro players deck hlen h hmem
    obtain ⟨h1, h2⟩ := dealCards_hands players deck hlen
    obtain ⟨i, hi, rfl⟩ := List.getElem_of_mem hmem
    have hi' : i < players.length := by rw [← h1]; exact hi
    have := (h2 i hi').2
    rw [List.getD_eq_getElem?_getD, List.getElem?_eq_getElem hi] at this
    simpa using this
  constructor
  · intro players deck hex
    by_contra hge
    push_neg at hge
    obtain ⟨h, hmem, hne⟩ := hex
    exact hne (hall players deck hge h hmem)
  · intro g fresh hperm hn
    have hfresh : fresh.length = 32 := by
      rw [hperm.length_eq]
      decide
    have hcover : 5 * g.players.length ≤ (deckForDeal g fresh).length := by
      unfold deckForDeal
      split
      · rw [hfresh]
        omega
      · omega
    refine ⟨hcover, hall g.players (deckForDeal g fresh) hcover, ?_⟩
    unfold handleGameState deckForDeal
    simp only []

/-- Witness for C10: a short deck yields a short hand (so degradation
implies exhaustion), and the empty-deck fixture reshuffles to the fresh
32-card deck, covering 10 cards for 2 players with every hand at 5. -/
theorem claim_C10_witness :
    ([] : List Card).length < 5 * ([pAlice, pBob] : List Player).length ∧
    5 * gC10.players.length ≤ (deckForDeal gC10 createDeck).length ∧
    (∀ h ∈ (dealCards gC10.players (deckForDeal gC10 createDeck)).1, h.length = 5) ∧
    (handleGameState gC10 createDeck).deck =
      (dealCards gC10.players (deckForDeal gC10 createDeck)).2 := by
  refine ⟨claim_C10.1 [pAlice, pBob] [] ?_, claim_C10.2 gC10 createDeck (List.Perm.refl _)
    (by decide)⟩
  exact ⟨[], by decide, by decide⟩

end CardsGame
